import Mathlib

/-!
Verification of the dify-mcp-server repository (three TypeScript source files:
the stdio/pipe MCP adapter, the SSE/push MCP adapter in sse-server.ts, and the
CLI entry point dify-command-tool.ts).  We shallowly embed the data model, the
streaming response aggregator, the tool-call handler, the CLI main flow, and
the push-adapter channel state machine, and prove the frozen claims about them.
-/

/-! ## JavaScript-value model

The streamed records are the results of the external JSON.parse on the payload
of recognized lines.  We model parsed JSON values, JavaScript truthiness, and
the string coercion used by string concatenation and assignment. -/

/-- Parsed JSON value, as produced by the external JSON.parse.  Arrays are not
needed by any record the repository consumes (records are objects with
optional error and answer members). -/
inductive JsonValue where
  | null
  | bool (b : Bool)
  | num (n : Int)
  | str (s : String)
  | obj (fields : List (String × JsonValue))

/-- Look up a member of a JSON object field list (the first binding wins; the
parser below already keeps at most one binding per key). -/
def lookupField : List (String × JsonValue) → String → Option JsonValue
  | [], _ => none
  | (k, v) :: rest, key => if k = key then some v else lookupField rest key

/-- Property access jsonData.k: a member of an object, undefined (none)
otherwise.  Access on null throws in JavaScript; the aggregator treats that
case separately. -/
def getField : JsonValue → String → Option JsonValue
  | JsonValue.obj fields, key => lookupField fields key
  | _, _ => none

/-- JavaScript truthiness of a value. -/
def truthy : JsonValue → Bool
  | JsonValue.null => false
  | JsonValue.bool b => b
  | JsonValue.num n => n != 0
  | JsonValue.str s => s != ""
  | JsonValue.obj _ => true

/-- JavaScript string coercion, as applied by fullResponse = jsonData.error and
fullResponse += jsonData.answer. -/
def jsToString : JsonValue → String
  | JsonValue.null => "null"
  | JsonValue.bool b => if b then "true" else "false"
  | JsonValue.num n => toString n
  | JsonValue.str s => s
  | JsonValue.obj _ => "[object Object]"

/-- Truthiness of jsonData.error (undefined when the member is missing). -/
def errTruthy (v : JsonValue) : Bool :=
  match getField v "error" with
  | some e => truthy e
  | none => false

/-- The text assigned by fullResponse = jsonData.error. -/
def errText (v : JsonValue) : String :=
  match getField v "error" with
  | some e => jsToString e
  | none => ""

/-- The text appended by fullResponse += jsonData.answer || "". -/
def answerText (v : JsonValue) : String :=
  match getField v "answer" with
  | some a => if truthy a then jsToString a else ""
  | none => ""

/-- The answer fragment of a record in the sense of the specification: the
answer member when it is a string, the empty string when it is missing. -/
def answerFragment (v : JsonValue) : String :=
  match getField v "answer" with
  | some (JsonValue.str s) => s
  | _ => ""

/-! ## Line splitting and line recognition

chunk.toString().split("\n") splits the decoded chunk on every newline
character; line.startsWith("data: ") recognizes a record line and
line.slice(6) takes its payload.  These are embedded structurally over the
character list of the string. -/

/-- Split on newline characters, accumulator of the current line reversed. -/
def splitLinesAux : List Char → List Char → List String
  | [], acc => [String.mk acc.reverse]
  | c :: cs, acc =>
    if c = '\n' then String.mk acc.reverse :: splitLinesAux cs []
    else splitLinesAux cs (c :: acc)

/-- chunk.toString().split("\n"): JavaScript split on the newline character. -/
def splitLines (s : String) : List String := splitLinesAux s.data []

/-- Character-list version of startsWith. -/
def startsWithChars : List Char → List Char → Bool
  | [], _ => true
  | _ :: _, [] => false
  | p :: ps, c :: cs => p = c && startsWithChars ps cs

/-- line.startsWith("data: "). -/
def isDataLine (l : String) : Bool := startsWithChars "data: ".data l.data

/-- line.slice(6): the payload after the recognized marker. -/
def dataPayload (l : String) : String := String.mk (l.data.drop 6)

/-! ## The Stream Aggregator

Embeds the streaming response loop shared verbatim by the stdio adapter
(part_000 lines 189-210) and the SSE adapter (sse-server.ts lines 202-223):

  let fullResponse = ""; let isError = false;
  for await (const chunk of response.data) \x7b
    const lines = chunk.toString().split("\n");
    for (const line of lines) \x7b
      if (line.startsWith("data: ")) \x7b
        try \x7b
          const jsonData = JSON.parse(line.slice(6));
          if (jsonData.error) \x7b isError = true; fullResponse = jsonData.error; break; \x7d
          fullResponse += jsonData.answer || "";
        \x7d catch (e) \x7b console.error(...); \x7d
      \x7d
    \x7d
  \x7d

The external JSON.parse is a parameter; a faithful executable model of it on
the record grammar is given further below (parseJson).  A payload parsing to
the JSON value null makes the property access jsonData.error throw, which the
catch swallows, so such a line is skipped like a parse failure. -/

structure AggState where
  fullResponse : String
  isError : Bool
deriving DecidableEq, Repr

/-- The inner loop over the lines of one chunk.  The break on a truthy error
member stops the traversal of the current chunk only. -/
def processLines (parse : String → Option JsonValue) : AggState → List String → AggState
  | st, [] => st
  | st, l :: rest =>
    if isDataLine l then
      match parse (dataPayload l) with
      | none => processLines parse st rest
      | some JsonValue.null => processLines parse st rest
      | some v =>
        if errTruthy v then { fullResponse := errText v, isError := true }
        else processLines parse { fullResponse := st.fullResponse ++ answerText v, isError := st.isError } rest
    else processLines parse st rest

/-- The outer loop over the chunks of the stream. -/
def processStream (parse : String → Option JsonValue) : AggState → List String → AggState
  | st, [] => st
  | st, ch :: rest => processStream parse (processLines parse st (splitLines ch)) rest

/-- The whole aggregation of a stream delivered as a list of decoded chunks. -/
def aggregate (parse : String → Option JsonValue) (chunks : List String) : AggState :=
  processStream parse { fullResponse := "", isError := false } chunks

/-! ## Executable model of the external JSON.parse

JSON.parse is a Node built-in (external to the repository).  For the concrete
counterexamples and witnesses we model it executably on the record grammar the
specification describes (objects whose members are strings, integers, booleans
or null, plus the bare scalars): whitespace handling, the requirement that the
whole input be consumed, and failure on truncated input are as in JSON.  A
later member with the same key overwrites the earlier one, as JSON.parse
does. -/

/-- The four JSON whitespace characters. -/
def jsonWsChars : List Char := [' ', '\n', '\t', '\r']

/-- Skip JSON whitespace. -/
def skipWs (s : List Char) : List Char := s.dropWhile (fun c => jsonWsChars.contains c)

/-- The character denoted by a one-character escape sequence. -/
def escChar (e : Char) : Option Char :=
  if e = 'n' then some '\n'
  else if e = 't' then some '\t'
  else if e = 'r' then some '\r'
  else if e = 'b' then some (Char.ofNat 8)
  else if e = 'f' then some (Char.ofNat 12)
  else if e = '"' || e = '\\' || e = '/' then some e
  else none

/-- Body of a string literal, after the opening quote; accumulator reversed. -/
def parseStrAux : List Char → List Char → Option (String × List Char)
  | [], _ => none
  | c :: cs, acc =>
    if c = '"' then some (String.mk acc.reverse, cs)
    else if c = '\\' then
      match cs with
      | [] => none
      | e :: cs2 =>
        match escChar e with
        | some ch => parseStrAux cs2 (ch :: acc)
        | none => none
    else parseStrAux cs (c :: acc)

/-- A string literal including the opening quote. -/
def parseStrLit : List Char → Option (String × List Char)
  | '"' :: cs => parseStrAux cs []
  | _ => none

/-- Leading decimal digits, accumulating their value. -/
def parseDigitsAux : List Char → Nat → Nat → Option (Nat × List Char)
  | [], count, acc => if count = 0 then none else some (acc, [])
  | c :: cs, count, acc =>
    if c.isDigit then parseDigitsAux cs (count + 1) (acc * 10 + (c.toNat - 48))
    else if count = 0 then none else some (acc, c :: cs)

/-- An unsigned integer literal. -/
def parseNat (s : List Char) : Option (Nat × List Char) := parseDigitsAux s 0 0

/-- Whether the input begins with the given keyword. -/
def takeKeyword : List Char → List Char → Option (List Char)
  | [], s => some s
  | k :: ks, c :: cs => if k = c then takeKeyword ks cs else none
  | _ :: _, [] => none

/-- Bind a key in a field list, overwriting an existing binding in place. -/
def setField : List (String × JsonValue) → String → JsonValue → List (String × JsonValue)
  | [], key, v => [(key, v)]
  | (k, w) :: rest, key, v =>
    if k = key then (key, v) :: rest else (k, w) :: setField rest key v

mutual

/-- A JSON value (integer numbers only; no arrays), fuel-bounded. -/
def parseValueAux : Nat → List Char → Option (JsonValue × List Char)
  | 0, _ => none
  | fuel + 1, s =>
    match skipWs s with
    | [] => none
    | c :: cs =>
      if c = '{' then
        match skipWs cs with
        | '}' :: rest => some (JsonValue.obj [], rest)
        | rest => parseMembersAux fuel rest []
      else if c = '"' then
        match parseStrAux cs [] with
        | some (str, rest) => some (JsonValue.str str, rest)
        | none => none
      else if c = '-' then
        match parseNat cs with
        | some (n, rest) => some (JsonValue.num (-(n : Int)), rest)
        | none => none
      else if c.isDigit then
        match parseNat (c :: cs) with
        | some (n, rest) => some (JsonValue.num (n : Int), rest)
        | none => none
      else
        match takeKeyword "true".data (c :: cs) with
        | some rest => some (JsonValue.bool true, rest)
        | none =>
          match takeKeyword "false".data (c :: cs) with
          | some rest => some (JsonValue.bool false, rest)
          | none =>
            match takeKeyword "null".data (c :: cs) with
            | some rest => some (JsonValue.null, rest)
            | none => none

/-- The members of an object, positioned at a key; fuel-bounded. -/
def parseMembersAux : Nat → List Char → List (String × JsonValue) →
    Option (JsonValue × List Char)
  | 0, _, _ => none
  | fuel + 1, s, acc =>
    match parseStrLit (skipWs s) with
    | none => none
    | some (key, rest1) =>
      match skipWs rest1 with
      | ':' :: rest2 =>
        match parseValueAux fuel rest2 with
        | none => none
        | some (v, rest3) =>
          let acc2 := setField acc key v
          match skipWs rest3 with
          | ',' :: rest4 => parseMembersAux fuel rest4 acc2
          | '}' :: rest4 => some (JsonValue.obj acc2, rest4)
          | _ => none
      | _ => none

end

/-- The model of JSON.parse: parse one value and require that only whitespace
remains. -/
def parseJson (s : String) : Option JsonValue :=
  match parseValueAux (s.data.length + 1) s.data with
  | some (v, rest) => if skipWs rest = [] then some v else none
  | none => none

/-! ## Aggregator facts -/

/-- Concatenation of a list of strings in order. -/
def concatStrings : List String → String
  | [] => ""
  | s :: rest => s ++ concatStrings rest

/-- The recognized record lines of a stream: for each chunk in order, the
lines of the chunk that carry the data marker. -/
def recLines : List String → List String
  | [] => []
  | ch :: rest => (splitLines ch).filter (fun l => isDataLine l) ++ recLines rest

/-- The answer member is either missing or a string, so that the record has a
well-defined answer fragment. -/
def answerOk (v : JsonValue) : Bool :=
  match getField v "answer" with
  | none => true
  | some (JsonValue.str _) => true
  | some _ => false

/-- A recognized line is a well-formed no-error record: its payload parses,
the parsed record carries no error member, and its answer member is a string
or missing. -/
def recordOkC1 (parse : String → Option JsonValue) (l : String) : Bool :=
  match parse (dataPayload l) with
  | some v => (getField v "error").isNone && answerOk v
  | none => false

/-- The answer fragment contributed by a recognized line. -/
def c1Fragment (parse : String → Option JsonValue) (l : String) : String :=
  match parse (dataPayload l) with
  | some v => answerFragment v
  | none => ""

/-- A recognized line whose parsed record has a truthy error member; only such
lines can set the error flag or replace the text. -/
def lineTriggersError (parse : String → Option JsonValue) (l : String) : Bool :=
  isDataLine l &&
    (match parse (dataPayload l) with
     | some v => errTruthy v
     | none => false)

theorem answerText_eq_answerFragment (v : JsonValue) (h : answerOk v = true) :
    answerText v = answerFragment v := by
  unfold answerOk at h
  unfold answerText answerFragment
  cases hv : getField v "answer" with
  | none => rfl
  | some a =>
    rw [hv] at h
    cases a with
    | str s =>
      by_cases hs : s = ""
      · subst hs; simp [truthy, jsToString]
      · simp [truthy, jsToString, hs]
    | null => simp at h
    | bool b => simp at h
    | num n => simp at h
    | obj fields => simp at h

theorem processLines_cons_append (parse : String → Option JsonValue) (l : String)
    (v : JsonValue) (rest : List String) (st : AggState)
    (hd : isDataLine l = true) (hp : parse (dataPayload l) = some v)
    (he : errTruthy v = false) :
    processLines parse st (l :: rest) =
      processLines parse
        { fullResponse := st.fullResponse ++ answerText v, isError := st.isError } rest := by
  cases v with
  | null =>
    have : answerText JsonValue.null = "" := rfl
    simp [processLines, hd, hp, this, String.append_empty]
  | bool b => simp [processLines, hd, hp, he]
  | num n => simp [processLines, hd, hp, he]
  | str s => simp [processLines, hd, hp, he]
  | obj fields => simp [processLines, hd, hp, he]

theorem processLines_cons_error (parse : String → Option JsonValue) (l : String)
    (v : JsonValue) (rest : List String) (st : AggState)
    (hd : isDataLine l = true) (hp : parse (dataPayload l) = some v)
    (he : errTruthy v = true) :
    processLines parse st (l :: rest) = { fullResponse := errText v, isError := true } := by
  cases v with
  | null => simp [errTruthy, getField] at he
  | bool b => simp [processLines, hd, hp, he]
  | num n => simp [processLines, hd, hp, he]
  | str s => simp [processLines, hd, hp, he]
  | obj fields => simp [processLines, hd, hp, he]

theorem processLines_cons_no_trigger (parse : String → Option JsonValue) (l : String)
    (rest : List String) (st : AggState)
    (h : lineTriggersError parse l = false) :
    ∃ st2 : AggState, processLines parse st (l :: rest) = processLines parse st2 rest ∧
      st2.isError = st.isError := by
  by_cases hd : isDataLine l
  · cases hp : parse (dataPayload l) with
    | none => exact ⟨st, by simp [processLines, hd, hp], rfl⟩
    | some v =>
      have herr : errTruthy v = false := by
        unfold lineTriggersError at h
        rw [hp] at h
        simpa [hd] using h
      exact ⟨{ fullResponse := st.fullResponse ++ answerText v, isError := st.isError },
        processLines_cons_append parse l v rest st hd hp herr, rfl⟩
  · exact ⟨st, by simp [processLines, hd], rfl⟩

theorem concatStrings_append (a b : List String) :
    concatStrings (a ++ b) = concatStrings a ++ concatStrings b := by
  induction a with
  | nil => simp [concatStrings, String.empty_append]
  | cons s rest ih => simp [concatStrings, ih, String.append_assoc]

theorem processLines_no_error (parse : String → Option JsonValue) (lines : List String) :
    ∀ st : AggState, (∀ l ∈ lines, isDataLine l = true → recordOkC1 parse l = true) →
    processLines parse st lines =
      { fullResponse :=
          st.fullResponse ++
            concatStrings ((lines.filter (fun l => isDataLine l)).map (c1Fragment parse)),
        isError := st.isError } := by
  induction lines with
  | nil =>
    intro st _
    simp [processLines, concatStrings, String.append_empty]
  | cons l rest ih =>
    intro st h
    by_cases hd : isDataLine l
    · have hok := h l (List.mem_cons_self l rest) hd
      unfold recordOkC1 at hok
      cases hp : parse (dataPayload l) with
      | none => rw [hp] at hok; simp at hok
      | some v =>
        rw [hp] at hok
        simp only [Bool.and_eq_true, Option.isNone_iff_eq_none] at hok
        obtain ⟨he, ha⟩ := hok
        have herr : errTruthy v = false := by unfold errTruthy; rw [he]
        rw [processLines_cons_append parse l v rest st hd hp herr]
        rw [ih _ (fun x hx hdx => h x (List.mem_cons_of_mem l hx) hdx)]
        have hfrag : answerText v = c1Fragment parse l := by
          unfold c1Fragment
          rw [hp, answerText_eq_answerFragment v ha]
        simp [List.filter_cons, hd, concatStrings, hfrag, String.append_assoc]
    · have hskip : processLines parse st (l :: rest) = processLines parse st rest := by
        simp [processLines, hd]
      rw [hskip, ih _ (fun x hx hdx => h x (List.mem_cons_of_mem l hx) hdx)]
      simp [List.filter_cons, hd]

theorem recLines_cons (ch : String) (rest : List String) :
    recLines (ch :: rest) = (splitLines ch).filter (fun l => isDataLine l) ++ recLines rest :=
  rfl

theorem processStream_no_error (parse : String → Option JsonValue) (chunks : List String) :
    ∀ st : AggState, (∀ l ∈ recLines chunks, recordOkC1 parse l = true) →
    processStream parse st chunks =
      { fullResponse :=
          st.fullResponse ++ concatStrings ((recLines chunks).map (c1Fragment parse)),
        isError := st.isError } := by
  induction chunks with
  | nil =>
    intro st _
    simp [processStream, recLines, concatStrings, String.append_empty]
  | cons ch rest ih =>
    intro st h
    have hch : ∀ l ∈ splitLines ch, isDataLine l = true → recordOkC1 parse l = true := by
      intro l hl hdl
      exact h l (by
        rw [recLines_cons]
        exact List.mem_append_left _ (List.mem_filter.mpr ⟨hl, hdl⟩))
    have hrest : ∀ l ∈ recLines rest, recordOkC1 parse l = true := by
      intro l hl
      exact h l (by rw [recLines_cons]; exact List.mem_append_right _ hl)
    show processStream parse (processLines parse st (splitLines ch)) rest = _
    rw [processLines_no_error parse (splitLines ch) st hch, ih _ hrest, recLines_cons]
    simp [List.map_append, concatStrings_append, String.append_assoc]

theorem processLines_isError_mono (parse : String → Option JsonValue) (lines : List String) :
    ∀ st : AggState, st.isError = true → (processLines parse st lines).isError = true := by
  induction lines with
  | nil => intro st h; simpa [processLines] using h
  | cons l rest ih =>
    intro st h
    by_cases ht : lineTriggersError parse l
    · simp only [lineTriggersError, Bool.and_eq_true] at ht
      obtain ⟨hd, hm⟩ := ht
      cases hp : parse (dataPayload l) with
      | none => rw [hp] at hm; simp at hm
      | some v =>
        rw [hp] at hm
        rw [processLines_cons_error parse l v rest st hd hp hm]
    · obtain ⟨st2, heq, hiso⟩ := processLines_cons_no_trigger parse l rest st
        (Bool.not_eq_true _ ▸ ht)
      rw [heq]
      exact ih st2 (hiso.trans h)

theorem processStream_isError_mono (parse : String → Option JsonValue) (chunks : List String) :
    ∀ st : AggState, st.isError = true → (processStream parse st chunks).isError = true := by
  induction chunks with
  | nil => intro st h; simpa [processStream] using h
  | cons ch rest ih =>
    intro st h
    show (processStream parse (processLines parse st (splitLines ch)) rest).isError = true
    exact ih _ (processLines_isError_mono parse (splitLines ch) st h)

theorem processLines_break (parse : String → Option JsonValue)
    (first : List String) (lerr : String) (later : List String) (v : JsonValue)
    (hmark : isDataLine lerr = true) (hp : parse (dataPayload lerr) = some v)
    (he : errTruthy v = true)
    (h1 : ∀ l ∈ first, lineTriggersError parse l = false) :
    ∀ st : AggState, processLines parse st (first ++ lerr :: later) =
      { fullResponse := errText v, isError := true } := by
  induction first with
  | nil =>
    intro st
    exact processLines_cons_error parse lerr v later st hmark hp he
  | cons a as ih =>
    intro st
    obtain ⟨st2, heq, -⟩ := processLines_cons_no_trigger parse a (as ++ lerr :: later) st
      (h1 a (List.mem_cons_self a as))
    rw [List.cons_append, heq]
    exact ih (fun l hl => h1 l (List.mem_cons_of_mem a hl)) st2

theorem processStream_append (parse : String → Option JsonValue) (xs ys : List String) :
    ∀ st : AggState,
      processStream parse st (xs ++ ys) = processStream parse (processStream parse st xs) ys := by
  induction xs with
  | nil => intro st; rfl
  | cons ch rest ih => intro st; exact ih (processLines parse st (splitLines ch))

/-! ## Claims about the Stream Aggregator -/

/-- C1: for every well-formed input stream whose recognized data-marked
records all parse and none carries an error member, the final aggregated text
equals the concatenation, in arrival order, of the answer fragment of each
record (a missing answer member contributing the empty string), and the
resulting isError flag is false. -/
theorem c1_no_error_concat (parse : String → Option JsonValue) (chunks : List String)
    (h : ∀ l ∈ recLines chunks, recordOkC1 parse l = true) :
    aggregate parse chunks =
      { fullResponse := concatStrings ((recLines chunks).map (c1Fragment parse)),
        isError := false } := by
  unfold aggregate
  rw [processStream_no_error parse chunks _ h]
  simp [String.empty_append]

/-- C1 witness: the two-chunk stream from the specification example yields the
text Hello with no error flag. -/
theorem c1_no_error_concat_witness :
    aggregate parseJson
        ["data: \x7b\"answer\":\"Hel\"\x7d\n", "data: \x7b\"answer\":\"lo\"\x7d\n"] =
      { fullResponse := "Hello", isError := false } := by
  have h := c1_no_error_concat parseJson
    ["data: \x7b\"answer\":\"Hel\"\x7d\n", "data: \x7b\"answer\":\"lo\"\x7d\n"]
    (by decide)
  exact h.trans (by rfl)

/-- C2 counterexample: a stream whose first chunk is an error record with
message E and whose second chunk is an answer record with fragment X ends with
the aggregated text EX, not E: records arriving in chunks after the first
error still alter the text, contrary to the claim. -/
theorem c2_counterexample :
    aggregate parseJson
        ["data: \x7b\"error\":\"E\"\x7d\n", "data: \x7b\"answer\":\"X\"\x7d\n"] =
      { fullResponse := "EX", isError := true } ∧ "EX" ≠ "E" := by
  constructor
  · rfl
  · decide

/-- C2 amended: the first error record encountered sets isError to true and
replaces the accumulated text with exactly that error message, discarding the
fragments accumulated before it and skipping the remaining lines of its own
chunk; but later chunks are still processed from that state (so answer
fragments in later chunks are appended after the error message and a later
error record replaces the text again), and isError, once set true, is never
cleared. -/
theorem c2_first_error_replaces (parse : String → Option JsonValue)
    (pre post : List String) (ch : String)
    (first later : List String) (lerr : String) (v : JsonValue)
    (hsplit : splitLines ch = first ++ lerr :: later)
    (hpre : ∀ c ∈ pre, ∀ l ∈ splitLines c, lineTriggersError parse l = false)
    (hfirst : ∀ l ∈ first, lineTriggersError parse l = false)
    (hmark : isDataLine lerr = true)
    (hp : parse (dataPayload lerr) = some v)
    (he : errTruthy v = true) :
    aggregate parse (pre ++ ch :: post) =
      processStream parse { fullResponse := errText v, isError := true } post ∧
    (aggregate parse (pre ++ ch :: post)).isError = true := by
  have key : aggregate parse (pre ++ ch :: post) =
      processStream parse { fullResponse := errText v, isError := true } post := by
    unfold aggregate
    rw [processStream_append]
    show processStream parse
      (processLines parse (processStream parse _ pre) (splitLines ch)) post = _
    rw [hsplit, processLines_break parse first lerr later v hmark hp he hfirst]
  refine ⟨key, ?_⟩
  rw [key]
  exact processStream_isError_mono parse post _ rfl

/-- C2 witness: a single-record error chunk followed by an answer chunk; the
state right after the error chunk is exactly the error message with the flag
set, and the later chunk appends to it with the flag still set. -/
theorem c2_first_error_replaces_witness :
    aggregate parseJson ["data: \x7b\"error\":\"boom\"\x7d", "data: \x7b\"answer\":\"x\"\x7d"] =
      processStream parseJson { fullResponse := "boom", isError := true }
        ["data: \x7b\"answer\":\"x\"\x7d"] ∧
    (aggregate parseJson
      ["data: \x7b\"error\":\"boom\"\x7d", "data: \x7b\"answer\":\"x\"\x7d"]).isError = true := by
  have h := c2_first_error_replaces parseJson [] ["data: \x7b\"answer\":\"x\"\x7d"]
    "data: \x7b\"error\":\"boom\"\x7d" [] [] "data: \x7b\"error\":\"boom\"\x7d"
    (JsonValue.obj [("error", JsonValue.str "boom")])
    (by rfl) (by intro c hc; simp at hc) (by intro l hl; simp at hl)
    (by rfl) (by rfl) (by rfl)
  exact h

/-- C3: the aggregator splits lines per chunk with no carry-over buffer, so
there is a record and a chunking of the same bytes that splits the record
across two chunks for which the aggregated text differs from the aggregation
of the bytes delivered as one chunk: the spanning record is truncated, its
first half fails to parse and its second half carries no data marker. -/
theorem c3_chunk_split_truncates :
    ("data: \x7b\"ans" ++ "wer\":\"ab\"\x7d\n" = "data: \x7b\"answer\":\"ab\"\x7d\n") ∧
    aggregate parseJson ["data: \x7b\"ans", "wer\":\"ab\"\x7d\n"] =
      { fullResponse := "", isError := false } ∧
    aggregate parseJson ["data: \x7b\"answer\":\"ab\"\x7d\n"] =
      { fullResponse := "ab", isError := false } ∧
    (aggregate parseJson ["data: \x7b\"ans", "wer\":\"ab\"\x7d\n"]).fullResponse ≠
      (aggregate parseJson ["data: \x7b\"answer\":\"ab\"\x7d\n"]).fullResponse := by
  refine ⟨rfl, rfl, rfl, ?_⟩
  decide

/-! ## The tool-call handler of the two MCP adapters

Embeds isValidChatRequest (part_000 lines 42-51, sse-server.ts lines 45-54)
and the CallToolRequestSchema handler (part_000 lines 144-235, sse-server.ts
lines 157-248); the two files contain this code verbatim.  External
collaborators are parameters: fsExists models fs.existsSync, the upload
oracle models the POST /files/upload round trip (the message of a failed
axios call, or the id of the uploaded file), and the chat oracle models the
POST /chat-messages round trip (the message of a failed axios call, or the
list of streamed chunks).  The returned list of network calls records every
remote request that was issued, in order. -/

/-- The file reference pushed after a successful upload. -/
structure FileInput where
  type : String
  transferMethod : String
  uploadFileId : Option String
deriving DecidableEq, Repr

/-- A network request issued to the remote API. -/
inductive NetCall where
  | upload (filePath : String) (user : String)
  | chatMessages (query : String) (files : List FileInput) (user : String) (responseMode : String)
deriving DecidableEq, Repr

/-- Protocol error codes used by the handler. -/
inductive McpErrorCode where
  | MethodNotFound
  | InvalidParams
  | InternalError
deriving DecidableEq, Repr

/-- Outcome of one tool call: a normal tool response, or a thrown protocol
error. -/
inductive HandlerResult where
  | toolResponse (text : String) (isError : Bool)
  | mcpError (code : McpErrorCode) (message : String)
deriving DecidableEq, Repr

/-- isValidChatRequest: the arguments are an object, their query member is a
string, and their imageFilePath member is absent or a string naming an
existing file. -/
def isValidChatRequest (fsExists : String → Bool) (args : Option JsonValue) : Bool :=
  match args with
  | some (JsonValue.obj fields) =>
    (match lookupField fields "query" with
     | some (JsonValue.str _) => true
     | _ => false) &&
    (match lookupField fields "imageFilePath" with
     | none => true
     | some (JsonValue.str p) => fsExists p
     | some _ => false)
  | _ => false

/-- The string member of an object, defaulting to the empty string; the
handler reads requestArgs.query only after validation has established that it
is a string. -/
def stringField (v : JsonValue) (key : String) : String :=
  match getField v key with
  | some (JsonValue.str s) => s
  | _ => ""

/-- requestArgs.imageFilePath as an optional string. -/
def imagePathOf (v : JsonValue) : Option String :=
  match getField v "imageFilePath" with
  | some (JsonValue.str p) => some p
  | _ => none

/-- The chat-messages call and the aggregation of its streamed response; an
axios failure is caught and converted into a tool response carrying the
remote message with isError true. -/
def chatPhase (parse : String → Option JsonValue)
    (chat : String → List FileInput → String → Except String (List String))
    (q : String) (files : List FileInput) (preCalls : List NetCall) :
    HandlerResult × List NetCall :=
  match chat q files "mcp-user" with
  | Except.error msg =>
    (HandlerResult.toolResponse msg true,
      preCalls ++ [NetCall.chatMessages q files "mcp-user" "streaming"])
  | Except.ok chunks =>
    let st := aggregate parse chunks
    (HandlerResult.toolResponse st.fullResponse st.isError,
      preCalls ++ [NetCall.chatMessages q files "mcp-user" "streaming"])

/-- The CallToolRequestSchema handler shared by the two MCP adapters: check
the tool name, validate the arguments, optionally upload the image (a failed
upload propagates as an InternalError protocol error), then issue the chat
call and aggregate its stream. -/
def callToolHandler (fsExists : String → Bool) (parse : String → Option JsonValue)
    (upload : String → String → Except String String)
    (chat : String → List FileInput → String → Except String (List String))
    (toolName : String) (args : Option JsonValue) : HandlerResult × List NetCall :=
  if toolName ≠ "antd-component-codegen-mcp-tool" then
    (HandlerResult.mcpError McpErrorCode.MethodNotFound ("Unknown tool: " ++ toolName), [])
  else if ¬ isValidChatRequest fsExists args then
    (HandlerResult.mcpError McpErrorCode.InvalidParams "Invalid chat request arguments", [])
  else
    let v := args.getD JsonValue.null
    let q := stringField v "query"
    match imagePathOf v with
    | some p =>
      if p ≠ "" then
        match upload p "mcp-user" with
        | Except.error msg =>
          (HandlerResult.mcpError McpErrorCode.InternalError ("File upload failed: " ++ msg),
            [NetCall.upload p "mcp-user"])
        | Except.ok fid =>
          chatPhase parse chat q [FileInput.mk "image" "local_file" (some fid)]
            [NetCall.upload p "mcp-user"]
      else chatPhase parse chat q [] []
    | none => chatPhase parse chat q [] []

/-- The tool-call handler of the stdio (pipe) adapter, part_000 lines
144-235. -/
def difyServerCallTool (fsExists : String → Bool) (parse : String → Option JsonValue)
    (upload : String → String → Except String String)
    (chat : String → List FileInput → String → Except String (List String))
    (toolName : String) (args : Option JsonValue) : HandlerResult × List NetCall :=
  callToolHandler fsExists parse upload chat toolName args

/-- The tool-call handler of the SSE (push) adapter, sse-server.ts lines
157-248; the code is identical to the stdio one. -/
def difySSEServerCallTool (fsExists : String → Bool) (parse : String → Option JsonValue)
    (upload : String → String → Except String String)
    (chat : String → List FileInput → String → Except String (List String))
    (toolName : String) (args : Option JsonValue) : HandlerResult × List NetCall :=
  callToolHandler fsExists parse upload chat toolName args

/-! ## The CLI entry point

Embeds dify-command-tool.ts: the argv handling at lines 114-125 and
sendChatMessage at lines 42-112.  The DIFY_API_KEY check sits inside
sendChatMessage, before the try block, so a missing key propagates to the
top-level catch(console.error), which logs it; the process then finishes
normally.  Only a missing query exits with code 1.  The CLI streaming loop
differs from the adapters: a truthy error record logs the error and returns
from the whole function, and only truthy answer members are written to
standard output. -/

/-- Outcome of one CLI run: the exit code, the network calls issued, the text
written to standard output, and the messages written to standard error. -/
structure CliOutcome where
  exitCode : Nat
  calls : List NetCall
  stdout : String
  errorLog : List String
deriving DecidableEq, Repr

/-- The usage message printed when the query argument is missing. -/
def usageMsg : String :=
  "Usage: DIFY_API_KEY=**** node dify-command-tool.js <query> [imageFilePath]"

/-- The message of the error thrown when DIFY_API_KEY is missing (identical in
all three source files). -/
def apiKeyMsg : String := "DIFY_API_KEY environment variable is required"

/-- The inner loop of the CLI over the lines of one chunk: returns the text
written to stdout, the messages logged, and whether a truthy error record
caused a return from the whole function. -/
def cliLines (parse : String → Option JsonValue) : List String → String × List String × Bool
  | [] => ("", [], false)
  | l :: rest =>
    if isDataLine l then
      match parse (dataPayload l) with
      | none =>
        let (out, log, stop) := cliLines parse rest
        (out, "Failed to parse SSE data:" :: log, stop)
      | some JsonValue.null =>
        let (out, log, stop) := cliLines parse rest
        (out, "Failed to parse SSE data:" :: log, stop)
      | some v =>
        if errTruthy v then ("", ["Error: " ++ errText v], true)
        else
          let (out, log, stop) := cliLines parse rest
          (answerText v ++ out, log, stop)
    else cliLines parse rest

/-- The outer loop of the CLI over the chunks of the stream; a return from the
inner loop abandons the remaining chunks. -/
def cliChunks (parse : String → Option JsonValue) : List String → String × List String
  | [] => ("", [])
  | ch :: rest =>
    match cliLines parse (splitLines ch) with
    | (out1, log1, true) => (out1, log1)
    | (out1, log1, false) =>
      let (out2, log2) := cliChunks parse rest
      (out1 ++ out2, log1 ++ log2)

/-- The chat call of the CLI and the processing of its stream, user cli-user;
an axios failure is caught and logged. -/
def cliChat (parse : String → Option JsonValue)
    (chat : String → List FileInput → String → Except String (List String))
    (q : String) (files : List FileInput) (preCalls : List NetCall) : CliOutcome :=
  match chat q files "cli-user" with
  | Except.error msg =>
    CliOutcome.mk 0 (preCalls ++ [NetCall.chatMessages q files "cli-user" "streaming"]) ""
      ["Error: " ++ msg]
  | Except.ok chunks =>
    let (out, log) := cliChunks parse chunks
    CliOutcome.mk 0 (preCalls ++ [NetCall.chatMessages q files "cli-user" "streaming"]) out log

/-- The whole CLI run: argv handling, then sendChatMessage with the top-level
catch.  queryArg and imageArg are process.argv[2] and process.argv[3]. -/
def cliMain (apiKey : Option String) (fsExists : String → Bool)
    (upload : String → String → Except String String)
    (chat : String → List FileInput → String → Except String (List String))
    (parse : String → Option JsonValue)
    (queryArg imageArg : Option String) : CliOutcome :=
  match queryArg with
  | none => CliOutcome.mk 1 [] "" [usageMsg]
  | some q =>
    if q = "" then CliOutcome.mk 1 [] "" [usageMsg]
    else
      match apiKey with
      | none => CliOutcome.mk 0 [] "" [apiKeyMsg]
      | some k =>
        if k = "" then CliOutcome.mk 0 [] "" [apiKeyMsg]
        else
          match imageArg with
          | some p =>
            if p ≠ "" && fsExists p then
              match upload p "cli-user" with
              | Except.error msg =>
                CliOutcome.mk 0 [NetCall.upload p "cli-user"] "" ["Error: " ++ msg]
              | Except.ok fid =>
                cliChat parse chat q [FileInput.mk "image" "local_file" (some fid)]
                  [NetCall.upload p "cli-user"]
            else cliChat parse chat q [] []
          | none => cliChat parse chat q [] []

/-- The module-load credential check of the two MCP adapters (sse-server.ts
lines 17-20, part_000 lines 14-17): a missing or empty DIFY_API_KEY throws
before the server is constructed. -/
def apiKeyStartupCheck (env : Option String) : Except String String :=
  match env with
  | none => Except.error apiKeyMsg
  | some k => if k = "" then Except.error apiKeyMsg else Except.ok k

/-! ## The push-adapter channel state machine

Embeds the express routes of sse-server.ts lines 251-283: GET /sse stores a
new transport in the process-wide currentTransport slot; the close handler of
each connection sets the slot to null unconditionally; POST /messages answers
status 400 with an error body when the slot is null and otherwise forwards the
message to the transport in the slot.  Connections are identified by numbers;
the slot holds the identifier of the connection whose transport it stores. -/

/-- The process-wide state of the push adapter. -/
structure PushAdapterState where
  currentTransport : Option Nat
deriving DecidableEq, Repr

/-- The state before any request. -/
def initialPushState : PushAdapterState := PushAdapterState.mk none

/-- The externally visible events of the push adapter. -/
inductive PushEvent where
  | sseConnect (connId : Nat)
  | connClose (connId : Nat)
  | postMessage
deriving DecidableEq, Repr

/-- The response of the POST /messages route. -/
inductive PostOutcome where
  | noActiveConnection
  | forwarded (connId : Nat)
deriving DecidableEq, Repr

/-- The HTTP status and error body written by the route itself; a forwarded
message is answered by the external transport instead. -/
def postHttpResponse : PostOutcome → Option (Nat × String)
  | PostOutcome.noActiveConnection => some (400, "No active SSE connection")
  | PostOutcome.forwarded _ => none

/-- One step of the push adapter. -/
def pushStep : PushAdapterState → PushEvent → PushAdapterState × Option PostOutcome
  | _, PushEvent.sseConnect c => (PushAdapterState.mk (some c), none)
  | _, PushEvent.connClose _ => (PushAdapterState.mk none, none)
  | st, PushEvent.postMessage =>
    match st.currentTransport with
    | none => (st, some PostOutcome.noActiveConnection)
    | some c => (st, some (PostOutcome.forwarded c))

/-- Run a sequence of events, collecting the POST responses. -/
def runPushEvents : PushAdapterState → List PushEvent → PushAdapterState × List PostOutcome
  | st, [] => (st, [])
  | st, e :: rest =>
    match pushStep st e with
    | (st2, none) => runPushEvents st2 rest
    | (st2, some r) =>
      match runPushEvents st2 rest with
      | (st3, rs) => (st3, r :: rs)

/-! ## Claims about validation, the adapters and the CLI -/

/-- The arguments carry no string query member (claim C4 wording: the query is
missing or non-string). -/
def queryMissingOrNonString (args : Option JsonValue) : Bool :=
  match args with
  | some v =>
    (match getField v "query" with
     | some (JsonValue.str _) => false
     | _ => true)
  | none => true

/-- The arguments carry an imageFilePath member that is a string naming a
non-existent file (claim C4 wording). -/
def imageNonexistent (fsExists : String → Bool) (args : Option JsonValue) : Bool :=
  match args with
  | some v =>
    (match getField v "imageFilePath" with
     | some (JsonValue.str p) => !fsExists p
     | _ => false)
  | none => false

theorem isValidChatRequest_false_of_bad (fsExists : String → Bool) (args : Option JsonValue)
    (h : queryMissingOrNonString args = true ∨ imageNonexistent fsExists args = true) :
    isValidChatRequest fsExists args = false := by
  rcases h with h | h
  · cases args with
    | none => rfl
    | some v =>
      cases v with
      | null => rfl
      | bool b => rfl
      | num n => rfl
      | str s => rfl
      | obj fields =>
        have h2 : (match lookupField fields "query" with
            | some (JsonValue.str _) => false
            | _ => true) = true := h
        show ((match lookupField fields "query" with
            | some (JsonValue.str _) => true
            | _ => false) &&
          (match lookupField fields "imageFilePath" with
            | none => true
            | some (JsonValue.str p) => fsExists p
            | some _ => false)) = false
        cases hq : lookupField fields "query" with
        | none => simp [hq]
        | some w =>
          cases w with
          | str s => rw [hq] at h2; simp at h2
          | null => simp [hq]
          | bool b => simp [hq]
          | num n => simp [hq]
          | obj fs => simp [hq]
  · cases args with
    | none => simp [imageNonexistent] at h
    | some v =>
      cases v with
      | null => simp [imageNonexistent, getField] at h
      | bool b => simp [imageNonexistent, getField] at h
      | num n => simp [imageNonexistent, getField] at h
      | str s => simp [imageNonexistent, getField] at h
      | obj fields =>
        have h2 : (match lookupField fields "imageFilePath" with
            | some (JsonValue.str p) => !fsExists p
            | _ => false) = true := h
        show ((match lookupField fields "query" with
            | some (JsonValue.str _) => true
            | _ => false) &&
          (match lookupField fields "imageFilePath" with
            | none => true
            | some (JsonValue.str p) => fsExists p
            | some _ => false)) = false
        cases hi : lookupField fields "imageFilePath" with
        | none => rw [hi] at h2; simp at h2
        | some w =>
          cases w with
          | str p =>
            rw [hi] at h2
            simp only [Bool.not_eq_true'] at h2
            simp [hi, h2]
          | null => rw [hi] at h2; simp at h2
          | bool b => rw [hi] at h2; simp at h2
          | num n => rw [hi] at h2; simp at h2
          | obj fs => rw [hi] at h2; simp at h2

/-- C4: a tool call to the registered tool whose arguments have a missing or
non-string query, or whose imageFilePath names a non-existent file, is
rejected by both adapters with the InvalidParams protocol error, and the
empty call list shows that no upload and no chat-messages request was
issued. -/
theorem c4_invalid_rejected_before_network (fsExists : String → Bool)
    (parse : String → Option JsonValue)
    (upload : String → String → Except String String)
    (chat : String → List FileInput → String → Except String (List String))
    (args : Option JsonValue)
    (h : queryMissingOrNonString args = true ∨ imageNonexistent fsExists args = true) :
    difyServerCallTool fsExists parse upload chat "antd-component-codegen-mcp-tool" args =
      (HandlerResult.mcpError McpErrorCode.InvalidParams "Invalid chat request arguments", []) ∧
    difySSEServerCallTool fsExists parse upload chat "antd-component-codegen-mcp-tool" args =
      (HandlerResult.mcpError McpErrorCode.InvalidParams "Invalid chat request arguments", []) := by
  have hval := isValidChatRequest_false_of_bad fsExists args h
  constructor
  · simp [difyServerCallTool, callToolHandler, hval]
  · simp [difySSEServerCallTool, callToolHandler, hval]

/-- C4 witness: a request whose query is the number 5 is rejected by both
adapters with no network call. -/
theorem c4_invalid_rejected_before_network_witness :
    difyServerCallTool (fun _ => false) parseJson (fun _ _ => Except.error "never")
        (fun _ _ _ => Except.error "never") "antd-component-codegen-mcp-tool"
        (some (JsonValue.obj [("query", JsonValue.num 5)])) =
      (HandlerResult.mcpError McpErrorCode.InvalidParams "Invalid chat request arguments", []) ∧
    difySSEServerCallTool (fun _ => false) parseJson (fun _ _ => Except.error "never")
        (fun _ _ _ => Except.error "never") "antd-component-codegen-mcp-tool"
        (some (JsonValue.obj [("query", JsonValue.num 5)])) =
      (HandlerResult.mcpError McpErrorCode.InvalidParams "Invalid chat request arguments", []) :=
  c4_invalid_rejected_before_network (fun _ => false) parseJson (fun _ _ => Except.error "never")
    (fun _ _ _ => Except.error "never") (some (JsonValue.obj [("query", JsonValue.num 5)]))
    (Or.inl rfl)

/-- The arguments of claim C5: the query is present but the empty string. -/
def emptyQueryArgs : Option JsonValue := some (JsonValue.obj [("query", JsonValue.str "")])

/-- C5 counterexample: a request whose query is the empty string passes
validation in both adapters and proceeds to issue the chat-messages request;
it is not rejected with InvalidParams as the claim states. -/
theorem c5_counterexample :
    isValidChatRequest (fun _ => false) emptyQueryArgs = true ∧
    difyServerCallTool (fun _ => false) parseJson (fun _ _ => Except.error "never")
        (fun _ _ _ => Except.ok []) "antd-component-codegen-mcp-tool" emptyQueryArgs =
      (HandlerResult.toolResponse "" false,
        [NetCall.chatMessages "" [] "mcp-user" "streaming"]) ∧
    difySSEServerCallTool (fun _ => false) parseJson (fun _ _ => Except.error "never")
        (fun _ _ _ => Except.ok []) "antd-component-codegen-mcp-tool" emptyQueryArgs =
      (HandlerResult.toolResponse "" false,
        [NetCall.chatMessages "" [] "mcp-user" "streaming"]) :=
  ⟨rfl, rfl, rfl⟩

/-- C5 amended: validation accepts any string query, the empty string
included; a tool call whose query is the empty string passes validation in
both adapters, is never answered with a protocol error, and issues exactly the
chat-messages network call. -/
theorem c5_empty_query_accepted (fsExists : String → Bool)
    (parse : String → Option JsonValue)
    (upload : String → String → Except String String)
    (chat : String → List FileInput → String → Except String (List String)) :
    isValidChatRequest fsExists emptyQueryArgs = true ∧
    (difyServerCallTool fsExists parse upload chat "antd-component-codegen-mcp-tool"
        emptyQueryArgs).2 = [NetCall.chatMessages "" [] "mcp-user" "streaming"] ∧
    (∀ code msg, (difyServerCallTool fsExists parse upload chat
        "antd-component-codegen-mcp-tool" emptyQueryArgs).1 ≠
      HandlerResult.mcpError code msg) ∧
    (difySSEServerCallTool fsExists parse upload chat "antd-component-codegen-mcp-tool"
        emptyQueryArgs).2 = [NetCall.chatMessages "" [] "mcp-user" "streaming"] ∧
    (∀ code msg, (difySSEServerCallTool fsExists parse upload chat
        "antd-component-codegen-mcp-tool" emptyQueryArgs).1 ≠
      HandlerResult.mcpError code msg) := by
  cases hc : chat "" [] "mcp-user" with
  | error msg =>
    refine ⟨rfl, ?_, ?_, ?_, ?_⟩ <;>
      simp [difyServerCallTool, difySSEServerCallTool, callToolHandler, chatPhase,
        isValidChatRequest, emptyQueryArgs, lookupField, stringField, imagePathOf,
        getField, hc]
  | ok chunks =>
    refine ⟨rfl, ?_, ?_, ?_, ?_⟩ <;>
      simp [difyServerCallTool, difySSEServerCallTool, callToolHandler, chatPhase,
        isValidChatRequest, emptyQueryArgs, lookupField, stringField, imagePathOf,
        getField, hc]

/-- C6 counterexample: with DIFY_API_KEY absent and a query given, the CLI
does not terminate with a fatal error: the missing-key error thrown inside
sendChatMessage is caught by the top-level catch and merely logged, the
process finishes with the success exit code 0 (its only fatal exit, code 1,
is reserved for a missing query), after the argument handling has already
run.  No network call is made. -/
theorem c6_counterexample :
    cliMain none (fun _ => false) (fun _ _ => Except.error "never")
        (fun _ _ _ => Except.error "never") parseJson (some "hi") none =
      CliOutcome.mk 0 [] "" [apiKeyMsg] ∧ (0 : Nat) ≠ 1 :=
  ⟨rfl, by decide⟩

/-- C6 amended: the pipe and push adapters check DIFY_API_KEY at module load
and throw, so their startup is fatal before any request handling; the CLI
checks the key only inside sendChatMessage, where, given any query, a missing
key makes it perform no network call and log the error, after which the
process terminates normally with exit code 0 rather than fatally. -/
theorem c6_missing_key (q : String) (hq : q ≠ "") (fsExists : String → Bool)
    (upload : String → String → Except String String)
    (chat : String → List FileInput → String → Except String (List String))
    (parse : String → Option JsonValue) (img : Option String) :
    apiKeyStartupCheck none = Except.error apiKeyMsg ∧
    cliMain none fsExists upload chat parse (some q) img =
      CliOutcome.mk 0 [] "" [apiKeyMsg] := by
  refine ⟨rfl, ?_⟩
  simp [cliMain, hq]

/-- C6 witness: the amended claim at the query hi. -/
theorem c6_missing_key_witness :
    apiKeyStartupCheck none = Except.error apiKeyMsg ∧
    cliMain none (fun _ => false) (fun _ _ => Except.error "never")
        (fun _ _ _ => Except.error "never") parseJson (some "hi") none =
      CliOutcome.mk 0 [] "" [apiKeyMsg] :=
  c6_missing_key "hi" (by decide) (fun _ => false) (fun _ _ => Except.error "never")
    (fun _ _ _ => Except.error "never") parseJson none

/-- The arguments used in the C7 scenario: a query and an image path. -/
def imageQueryArgs (q p : String) : Option JsonValue :=
  some (JsonValue.obj [("query", JsonValue.str q), ("imageFilePath", JsonValue.str p)])

/-- C7 counterexample: on a valid request with an image, both MCP adapters
issue the upload call and the chat-messages call with the fixed user
identifier mcp-user, which is neither push-user nor pipe-user: the two
adapters do not distinguish the calling transport. -/
theorem c7_counterexample :
    (difySSEServerCallTool (fun _ => true) parseJson (fun _ _ => Except.ok "fid")
        (fun _ _ _ => Except.ok []) "antd-component-codegen-mcp-tool"
        (imageQueryArgs "q" "/img.png")).2 =
      [NetCall.upload "/img.png" "mcp-user",
        NetCall.chatMessages "q" [FileInput.mk "image" "local_file" (some "fid")]
          "mcp-user" "streaming"] ∧
    (difyServerCallTool (fun _ => true) parseJson (fun _ _ => Except.ok "fid")
        (fun _ _ _ => Except.ok []) "antd-component-codegen-mcp-tool"
        (imageQueryArgs "q" "/img.png")).2 =
      [NetCall.upload "/img.png" "mcp-user",
        NetCall.chatMessages "q" [FileInput.mk "image" "local_file" (some "fid")]
          "mcp-user" "streaming"] ∧
    "mcp-user" ≠ "push-user" ∧ "mcp-user" ≠ "pipe-user" :=
  ⟨rfl, rfl, by decide, by decide⟩

/-- C7 amended: the fixed user identifier distinguishes only the CLI from the
MCP adapters: on a valid request with an image, the pipe adapter and the push
adapter both send mcp-user in the upload call and in the chat-messages call,
while the CLI sends cli-user in both. -/
theorem c7_user_identifiers (fsExists : String → Bool) (parse : String → Option JsonValue)
    (upload : String → String → Except String String)
    (chat : String → List FileInput → String → Except String (List String))
    (q p fid fid2 : String)
    (hfs : fsExists p = true) (hp : p ≠ "")
    (hu : upload p "mcp-user" = Except.ok fid)
    (hu2 : upload p "cli-user" = Except.ok fid2)
    (hq : q ≠ "") :
    (difyServerCallTool fsExists parse upload chat "antd-component-codegen-mcp-tool"
        (imageQueryArgs q p)).2 =
      [NetCall.upload p "mcp-user",
        NetCall.chatMessages q [FileInput.mk "image" "local_file" (some fid)]
          "mcp-user" "streaming"] ∧
    (difySSEServerCallTool fsExists parse upload chat "antd-component-codegen-mcp-tool"
        (imageQueryArgs q p)).2 =
      [NetCall.upload p "mcp-user",
        NetCall.chatMessages q [FileInput.mk "image" "local_file" (some fid)]
          "mcp-user" "streaming"] ∧
    (cliMain (some "k") fsExists upload chat parse (some q) (some p)).calls =
      [NetCall.upload p "cli-user",
        NetCall.chatMessages q [FileInput.mk "image" "local_file" (some fid2)]
          "cli-user" "streaming"] := by
  have hval : isValidChatRequest fsExists
      (some (JsonValue.obj [("query", JsonValue.str q), ("imageFilePath", JsonValue.str p)])) =
      true := by
    simp [isValidChatRequest, lookupField, hfs]
  have hmcp : (callToolHandler fsExists parse upload chat
      "antd-component-codegen-mcp-tool" (imageQueryArgs q p)).2 =
      [NetCall.upload p "mcp-user",
        NetCall.chatMessages q [FileInput.mk "image" "local_file" (some fid)]
          "mcp-user" "streaming"] := by
    cases hc : chat q [FileInput.mk "image" "local_file" (some fid)] "mcp-user" with
    | error msg =>
      simp [callToolHandler, hval, imageQueryArgs, stringField, imagePathOf, getField,
        lookupField, hp, hu, chatPhase, hc]
    | ok chunks =>
      simp [callToolHandler, hval, imageQueryArgs, stringField, imagePathOf, getField,
        lookupField, hp, hu, chatPhase, hc]
  refine ⟨hmcp, hmcp, ?_⟩
  have hcli : cliMain (some "k") fsExists upload chat parse (some q) (some p) =
      cliChat parse chat q [FileInput.mk "image" "local_file" (some fid2)]
        [NetCall.upload p "cli-user"] := by
    simp [cliMain, hq, hp, hfs, hu2]
  rw [hcli]
  cases hc : chat q [FileInput.mk "image" "local_file" (some fid2)] "cli-user" with
  | error msg => simp [cliChat, hc]
  | ok chunks => simp [cliChat, hc]

/-- C7 witness: the amended claim at concrete oracles and arguments. -/
theorem c7_user_identifiers_witness :
    (difyServerCallTool (fun _ => true) parseJson (fun _ _ => Except.ok "fid")
        (fun _ _ _ => Except.ok []) "antd-component-codegen-mcp-tool"
        (imageQueryArgs "q" "/img.png")).2 =
      [NetCall.upload "/img.png" "mcp-user",
        NetCall.chatMessages "q" [FileInput.mk "image" "local_file" (some "fid")]
          "mcp-user" "streaming"] ∧
    (difySSEServerCallTool (fun _ => true) parseJson (fun _ _ => Except.ok "fid")
        (fun _ _ _ => Except.ok []) "antd-component-codegen-mcp-tool"
        (imageQueryArgs "q" "/img.png")).2 =
      [NetCall.upload "/img.png" "mcp-user",
        NetCall.chatMessages "q" [FileInput.mk "image" "local_file" (some "fid")]
          "mcp-user" "streaming"] ∧
    (cliMain (some "k") (fun _ => true) (fun _ _ => Except.ok "fid")
        (fun _ _ _ => Except.ok []) parseJson (some "q") (some "/img.png")).calls =
      [NetCall.upload "/img.png" "cli-user",
        NetCall.chatMessages "q" [FileInput.mk "image" "local_file" (some "fid")]
          "cli-user" "streaming"] :=
  c7_user_identifiers (fun _ => true) parseJson (fun _ _ => Except.ok "fid")
    (fun _ _ _ => Except.ok []) "q" "/img.png" "fid" "fid"
    rfl (by decide) rfl rfl (by decide)

/-- C8: a POST to the messages endpoint while no push channel is active is
answered by the route itself with status 400 and an error body and is
forwarded to no channel; this covers both the state in which no channel was
ever opened and the state reached by opening a channel and closing it. -/
theorem c8_post_without_channel (st : PushAdapterState)
    (h : st.currentTransport = none) :
    pushStep st PushEvent.postMessage = (st, some PostOutcome.noActiveConnection) ∧
    postHttpResponse PostOutcome.noActiveConnection = some (400, "No active SSE connection") ∧
    (∀ c, (pushStep st PushEvent.postMessage).2 ≠ some (PostOutcome.forwarded c)) ∧
    (runPushEvents initialPushState [PushEvent.postMessage]).2 =
      [PostOutcome.noActiveConnection] ∧
    (∀ a, (runPushEvents initialPushState
        [PushEvent.sseConnect a, PushEvent.connClose a, PushEvent.postMessage]).2 =
      [PostOutcome.noActiveConnection]) := by
  refine ⟨?_, rfl, ?_, rfl, fun a => rfl⟩
  · simp [pushStep, h]
  · intro c
    simp [pushStep, h]

/-- C8 witness: the fresh state has no active channel. -/
theorem c8_post_without_channel_witness :
    pushStep initialPushState PushEvent.postMessage =
      (initialPushState, some PostOutcome.noActiveConnection) ∧
    postHttpResponse PostOutcome.noActiveConnection = some (400, "No active SSE connection") ∧
    (∀ c, (pushStep initialPushState PushEvent.postMessage).2 ≠
      some (PostOutcome.forwarded c)) ∧
    (runPushEvents initialPushState [PushEvent.postMessage]).2 =
      [PostOutcome.noActiveConnection] ∧
    (∀ a, (runPushEvents initialPushState
        [PushEvent.sseConnect a, PushEvent.connClose a, PushEvent.postMessage]).2 =
      [PostOutcome.noActiveConnection]) :=
  c8_post_without_channel initialPushState rfl

/-- C9: the close handler of every connection clears the process-wide
active-channel slot unconditionally; in particular, after connection 1 opens,
connection 2 replaces it as the active channel, and the close of connection 1
then empties the slot even though connection 2 never closed, so a subsequent
POST is rejected with the missing-channel response despite the live
connection. -/
theorem c9_close_clears_unconditionally :
    (∀ (st : PushAdapterState) (c : Nat),
      (pushStep st (PushEvent.connClose c)).1.currentTransport = none) ∧
    (runPushEvents initialPushState
      [PushEvent.sseConnect 1, PushEvent.sseConnect 2]).1.currentTransport = some 2 ∧
    (runPushEvents initialPushState
      [PushEvent.sseConnect 1, PushEvent.sseConnect 2,
        PushEvent.connClose 1]).1.currentTransport = none ∧
    (runPushEvents initialPushState
      [PushEvent.sseConnect 1, PushEvent.sseConnect 2, PushEvent.connClose 1,
        PushEvent.postMessage]).2 = [PostOutcome.noActiveConnection] :=
  ⟨fun _ _ => rfl, rfl, rfl, rfl⟩

/-- C10: a successfully parsed record whose error member is present but falsy
(the empty string, zero, false; a null error is falsy too) neither sets
isError nor replaces the accumulated text: the aggregator continues with the
text extended by the answer text of the record (the answer member when
truthy, the empty string when it is missing or falsy) and the error flag
unchanged. -/
theorem c10_falsy_error_is_normal (parse : String → Option JsonValue)
    (st : AggState) (l : String) (v e : JsonValue) (rest : List String)
    (hd : isDataLine l = true) (hp : parse (dataPayload l) = some v)
    (he : getField v "error" = some e) (hf : truthy e = false) :
    processLines parse st (l :: rest) =
      processLines parse
        { fullResponse := st.fullResponse ++ answerText v, isError := st.isError } rest := by
  have herr : errTruthy v = false := by
    unfold errTruthy
    rw [he]
    exact hf
  exact processLines_cons_append parse l v rest st hd hp herr

/-- C10 witness: a record with an empty-string error member and the answer ok
appends ok and leaves the flag clear. -/
theorem c10_falsy_error_is_normal_witness :
    processLines parseJson (AggState.mk "" false)
        ["data: \x7b\"error\":\"\",\"answer\":\"ok\"\x7d"] =
      AggState.mk "ok" false := by
  have h := c10_falsy_error_is_normal parseJson (AggState.mk "" false)
    "data: \x7b\"error\":\"\",\"answer\":\"ok\"\x7d"
    (JsonValue.obj [("error", JsonValue.str ""), ("answer", JsonValue.str "ok")])
    (JsonValue.str "") [] rfl rfl rfl rfl
  exact h.trans rfl
